import Mathlib

/-!
Verification development for the hbf-Loanflow-CRM repository's core:
the generic CRUD route factory (server side, `crud-factory.js`) and the
fluent REST query translator (client side, `ibm-database.ts` /
`ibm-route-map.ts`).  The JavaScript/TypeScript sources are shallowly
embedded as executable Lean definitions; external collaborators
(Express, `pg`, `fetch`) are modelled by explicit parameters
(database row lists, fresh UUID strings, current timestamps) and by
pure "plan"/"result" values describing the one HTTP request or SQL
statement an operation would issue.
-/

namespace HBF

/-- A JSON value as it appears in request bodies and table rows.
JSON numbers are modelled as integers (no claim depends on fractional
values); an object or array value is carried as its JSON-serialized
text (constructor `jobj`), since only that serialized form ever crosses
the SQL parameter binding in the source. -/
inductive JValue where
  | str : String → JValue
  | num : Int → JValue
  | bool : Bool → JValue
  | null : JValue
  | jobj : String → JValue
deriving DecidableEq, Repr

/-- A JSON object (a request body or a table row): association list from
column name to value, first binding wins, as produced by `JSON.parse`
(which yields unique keys). -/
abbrev JObj := List (String × JValue)

/-- JavaScript truthiness of a JSON value (`if (v)`).  `""`, `0`,
`false` and `null` are falsy; objects and arrays are always truthy. -/
def JValue.truthy : JValue → Bool
  | .str s => !(s = "")
  | .num n => !(n = 0)
  | .bool b => b
  | .null => false
  | .jobj _ => true

/-- First-match lookup, mirroring JavaScript property access
`body[k]` (`none` = the property is absent / `undefined`). -/
def lookupJ : JObj → String → Option JValue
  | [], _ => none
  | p :: rest, k => if p.1 = k then some p.2 else lookupJ rest k

/-- Set key `k` to `v`: replace the first binding of `k` if present,
else append.  On unique-key objects this is exactly the effect of the
object spread `{ ...o, k: v }`. -/
def setKey : JObj → String → JValue → JObj
  | [], k, v => [(k, v)]
  | p :: rest, k, v => if p.1 = k then (k, v) :: rest else p :: setKey rest k v

/-- Remove every binding of key `k`, mirroring `delete o[k]`. -/
def removeKey : JObj → String → JObj
  | [], _ => []
  | p :: rest, k => if p.1 = k then removeKey rest k else p :: removeKey rest k

/-- The key list of an object (`Object.keys`). -/
def jkeys (o : JObj) : List String := o.map Prod.fst

/-!
## Server side: the generic CRUD route factory

Embeds `crud-factory.js` (docs/hbf-api-new-routes/crud-factory.js, with
the equivalent copies generated by the setup scripts).  Express, `pg`
and `uuid` are external: the parsed query string is a string/string
association list, the database's answer to the WHERE/ORDER portion of a
list query is an explicit row-list parameter, and the generated UUID
and current ISO timestamp are explicit string parameters.
-/

/-- The declarative configuration handed to `crudRoutes({...})`. -/
structure CrudConfig where
  table : String
  filterParams : List String
  requiredFields : List String
  allowDelete : Bool
deriving DecidableEq, Repr

/-- First-match lookup in the parsed query string (`req.query[k]`,
`none` = parameter absent). -/
def lookupStr : List (String × String) → String → Option String
  | [], _ => none
  | p :: rest, k => if p.1 = k then some p.2 else lookupStr rest k

/-- Numeric value of a list of decimal digit characters. -/
def digitsVal (ds : List Char) : Nat :=
  ds.foldl (fun a c => a * 10 + (c.toNat - 48)) 0

/-- Whether a character is a hexadecimal digit (`0-9a-fA-F`). -/
def isHexDigitCh (c : Char) : Bool :=
  c.isDigit || ('a' ≤ c && c ≤ 'f') || ('A' ≤ c && c ≤ 'F')

/-- Numeric value of one hexadecimal digit character. -/
def hexDigitVal (c : Char) : Nat :=
  if c.isDigit then c.toNat - 48
  else if 'A' ≤ c && c ≤ 'F' then c.toNat - 55
  else c.toNat - 87

/-- Numeric value of a list of hexadecimal digit characters. -/
def hexVal (ds : List Char) : Nat :=
  ds.foldl (fun a c => a * 16 + hexDigitVal c) 0

/-- The longest decimal-digit prefix as a number (`none` = no digits,
i.e. `NaN`). -/
def parseDecDigits (cs : List Char) : Option Nat :=
  let ds := cs.takeWhile Char.isDigit
  if ds.isEmpty then none else some (digitsVal ds)

/-- The longest hexadecimal-digit prefix as a number (`none` = no
digits, i.e. `NaN`). -/
def parseHexDigits (cs : List Char) : Option Nat :=
  let ds := cs.takeWhile isHexDigitCh
  if ds.isEmpty then none else some (hexVal ds)

/-- The unsigned part of `parseInt` with no explicit radix: a `0x`/`0X`
prefix switches to radix 16 (ECMAScript auto-detection), anything else
parses as radix 10. -/
def parseUnsigned (cs : List Char) : Option Nat :=
  match cs with
  | '0' :: 'x' :: rest => parseHexDigits rest
  | '0' :: 'X' :: rest => parseHexDigits rest
  | _ => parseDecDigits cs

/-- JavaScript `parseInt` on a string with no radix argument: leading
whitespace is skipped, an optional sign is consumed, then a `0x`/`0X`
prefix selects radix 16 and otherwise radix 10, and the longest prefix
of digits of that radix is taken; `none` stands for `NaN` (no digits). -/
def jsParseInt (s : String) : Option Int :=
  let cs := s.toList.dropWhile Char.isWhitespace
  match cs with
  | '-' :: rest => (parseUnsigned rest).map (fun n => -(n : Int))
  | '+' :: rest => (parseUnsigned rest).map (fun n => (n : Int))
  | _ => (parseUnsigned cs).map (fun n => (n : Int))

/-- `parseInt(req.query.limit)` as an optional integer (`none` = the
parameter is absent or parses to `NaN`). -/
def parsedLimit (q : List (String × String)) : Option Int :=
  (lookupStr q "limit").bind jsParseInt

/-- The effective LIMIT of the list handler:
`Math.min(parseInt(req.query.limit) || 100, 500)` — note `0` is falsy
in JavaScript, so a parsed value of `0` also falls back to `100`. -/
def listLimit (q : List (String × String)) : Int :=
  min (match parsedLimit q with
       | none => 100
       | some n => if n = 0 then 100 else n) 500

/-- The effective OFFSET: `parseInt(req.query.offset) || 0`. -/
def listOffset (q : List (String × String)) : Int :=
  match (lookupStr q "offset").bind jsParseInt with
  | none => 0
  | some n => n

/-- Outcome of the GET / (list) handler. -/
inductive ListResult where
  | serverError
  | rows (rs : List JObj)
deriving DecidableEq, Repr

/-- The GET / (list) handler, given `db` = the row sequence the
database produces for the WHERE/ORDER portion of the generated SQL.
The effective limit and offset are interpolated into
`LIMIT <l> OFFSET <o>`; Postgres rejects a negative LIMIT or OFFSET,
which the handler's catch block surfaces as a 500 Internal error.
Otherwise `OFFSET o` drops the first `o` rows and `LIMIT l` keeps at
most `l` of the rest, and the row array is returned. -/
def listHandler (db : List JObj) (q : List (String × String)) : ListResult :=
  if listLimit q < 0 ∨ listOffset q < 0 then .serverError
  else .rows ((db.drop (listOffset q).toNat).take (listLimit q).toNat)

/-- Sort direction of the generated ORDER BY clause. -/
inductive SortDir where
  | asc
  | desc
deriving DecidableEq, Repr

/-- `req.query.order_dir === 'asc' ? 'ASC' : 'DESC'`. -/
def dirOf (q : List (String × String)) : SortDir :=
  if lookupStr q "order_dir" = some "asc" then .asc else .desc

/-- The identifier whitelist `/^[a-z_]+$/i`: nonempty, letters and
underscores only. -/
def identOk (s : String) : Bool :=
  !s.isEmpty && s.toList.all (fun c => c.isAlpha || c = '_')

/-- Whether a string contains a character that is not a letter or an
underscore (the claims' phrasing of an invalid `order_by`). -/
def hasBadChar (s : String) : Bool :=
  s.toList.any (fun c => !(c.isAlpha || c = '_'))

/-- The ORDER BY clause of the generated list SQL:
`const orderCol = req.query.order_by || 'created_at'` (empty string is
falsy), then `ORDER BY "<orderCol>" <dir>` if the whitelist accepts the
column, else the fallback `ORDER BY "created_at" DESC`. -/
def orderSpec (q : List (String × String)) : String × SortDir :=
  let orderCol := match lookupStr q "order_by" with
    | some s => if s = "" then "created_at" else s
    | none => "created_at"
  if identOk orderCol then (orderCol, dirOf q) else ("created_at", .desc)

/-- Outcome of the POST (create) handler. -/
inductive PostResult where
  | missingField (f : String)
  | created (record : JObj)
deriving DecidableEq, Repr

/-- HTTP status of a POST outcome (400 validation / 201 created). -/
def postStatus : PostResult → Nat
  | .missingField _ => 400
  | .created _ => 201

/-- The error message of a failed POST
(`Missing required field: ${field}`). -/
def postMessage : PostResult → Option String
  | .missingField f => some ("Missing required field: " ++ f)
  | .created _ => none

/-- Whether the POST outcome issued an INSERT statement. -/
def insertIssued : PostResult → Bool
  | .missingField _ => false
  | .created _ => true

/-- The required-field check of the POST handler:
`body[field] === undefined || body[field] === null || body[field] === ''`. -/
def badField : Option JValue → Bool
  | none => true
  | some .null => true
  | some (.str "") => true
  | some _ => false

/-- The record the POST handler inserts:
`{ ...req.body, id, created_at: now, updated_at: now }` with
`id = req.body.id || uuidv4()` (`freshId` models the `uuidv4()` call,
`now` the `new Date().toISOString()` call). -/
def postRecord (body : JObj) (freshId now : String) : JObj :=
  let idv : JValue := match lookupJ body "id" with
    | some v => if v.truthy then v else .str freshId
    | none => .str freshId
  setKey (setKey (setKey body "id" idv) "created_at" (.str now)) "updated_at" (.str now)

/-- The POST (create) handler: validates `requiredFields` in order,
answering 400 on the first absent/null/empty one, otherwise inserts the
timestamped record (the subsequent re-read by id is external I/O and
does not change the inserted record). -/
def postHandler (cfg : CrudConfig) (body : JObj) (freshId now : String) : PostResult :=
  match cfg.requiredFields.find? (fun f => badField (lookupJ body f)) with
  | some f => .missingField f
  | none => .created (postRecord body freshId now)

/-- Whether the caller supplied a truthy `id` in the create body
(the condition under which `req.body.id || uuidv4()` keeps the
caller's value). -/
def suppliedIdTruthy (body : JObj) : Bool :=
  match lookupJ body "id" with
  | some v => v.truthy
  | none => false

/-- Outcome of the PUT/PATCH (update) handler; the two handlers are
textually identical in the source. -/
inductive PutResult where
  | notFound
  | emptyUpdate
  | updated (updates : JObj)
deriving DecidableEq, Repr

/-- HTTP status of a PUT outcome. -/
def putStatus : PutResult → Nat
  | .notFound => 404
  | .emptyUpdate => 400
  | .updated _ => 200

/-- Whether the PUT outcome issued an UPDATE statement. -/
def putUpdateIssued : PutResult → Bool
  | .updated _ => true
  | _ => false

/-- The merge set of the update handler:
`const updates = { ...req.body, updated_at: now }; delete updates.id;
delete updates.created_at;`. -/
def effectiveUpdates (body : JObj) (now : String) : JObj :=
  removeKey (removeKey (setKey body "updated_at" (.str now)) "id") "created_at"

/-- The PUT/PATCH handler: 404 when the row does not exist
(`rowExists` models the existence pre-check `SELECT id … WHERE id=$1`),
400 when the merge set is empty, otherwise one
`UPDATE … SET <keys> WHERE id=$n` over the merge set. -/
def putHandler (rowExists : Bool) (body : JObj) (now : String) : PutResult :=
  if rowExists then
    let u := effectiveUpdates body now
    if u.isEmpty then .emptyUpdate else .updated u
  else .notFound

/-- SQL parameter binding of a value: object/array values are
JSON-serialized to text (`JSON.stringify`), scalars pass through
(`typeof v === 'object' && v !== null ? JSON.stringify(v) : v`). -/
def bindValue : JValue → JValue
  | .jobj s => .str s
  | v => v

/-- Effect of the generated `UPDATE … SET` on the stored row: each
column named in the merge set receives its bound value, all other
columns keep their stored value. -/
def applyUpdate (row : JObj) (updates : JObj) : JObj :=
  updates.foldl (fun r p => setKey r p.1 (bindValue p.2)) row

/-!
## Client side: the fluent query translator

Embeds `ibm-database.ts` (the `IBMQueryBuilder` class) and
`ibm-route-map.ts`.  The terminal `execute()` is modelled as a pure
function from the accumulated query state to a *plan*: either an error
returned before any I/O, or a description of the single HTTP request
that would be issued; the network response itself is external.
-/

/-- The TypeScript `FilterValue = string | number | boolean | null`
union accepted by the comparison methods. -/
inductive FilterValue where
  | str : String → FilterValue
  | num : Int → FilterValue
  | bool : Bool → FilterValue
  | null : FilterValue
deriving DecidableEq, Repr

/-- JavaScript `String(v)` on a filter value. -/
def jsFilterString : FilterValue → String
  | .str s => s
  | .num n => toString n
  | .bool b => if b then "true" else "false"
  | .null => "null"

/-- One accumulated filter (`{ type, column, value }`). -/
structure Filter where
  ftype : String
  column : String
  value : FilterValue
deriving DecidableEq, Repr

/-- A route descriptor from `ibm-route-map.ts`. -/
structure RouteConfig where
  basePath : String
  dataKey : String
  filterParams : List String
  supportsGetById : Bool
  supportsDelete : Bool
deriving DecidableEq, Repr

/-- The static `ROUTE_MAP` of `ibm-route-map.ts`, entry for entry. -/
def ROUTE_MAP : List (String × RouteConfig) := [
  ("leads", ⟨"/api/v1/leads", "root", ["status", "source"], true, true⟩),
  ("contact_entities", ⟨"/api/v1/borrowers", "root", [], true, false⟩),
  ("borrowers", ⟨"/api/v1/borrowers", "root", [], true, false⟩),
  ("loan_applications", ⟨"/api/v1/loan-applications", "root", ["status", "borrower_id"], true, false⟩),
  ("notifications", ⟨"/api/v1/notifications", "root", ["success", "limit"], false, false⟩),
  ("audit_logs", ⟨"/api/v1/audit-logs", "data",
    ["method", "path", "actor", "actor_type", "status_min", "status_max", "since", "until", "limit", "offset"],
    false, false⟩),
  ("lenders", ⟨"/api/v1/lenders", "root", ["status", "lender_type", "user_id"], true, true⟩),
  ("clients", ⟨"/api/v1/clients", "root", ["status", "user_id"], true, false⟩),
  ("service_providers", ⟨"/api/v1/service-providers", "root", ["status", "provider_type", "user_id"], true, true⟩),
  ("profiles", ⟨"/api/v1/profiles", "root", ["user_id", "role", "is_active"], true, false⟩),
  ("messages", ⟨"/api/v1/messages", "root", ["user_id", "recipient_id", "lead_id", "is_read", "message_type"], true, true⟩),
  ("tasks", ⟨"/api/v1/tasks", "root", ["user_id", "assigned_to", "status", "priority", "lead_id"], true, true⟩),
  ("lead_documents", ⟨"/api/v1/lead-documents", "root", ["lead_id", "user_id", "status", "document_type"], true, true⟩),
  ("document_templates", ⟨"/api/v1/document-templates", "root", ["template_type", "is_active", "user_id"], true, true⟩),
  ("document_versions", ⟨"/api/v1/document-versions", "root", ["document_id", "uploaded_by"], true, false⟩),
  ("email_accounts", ⟨"/api/v1/email-accounts", "root", ["user_id", "is_active", "provider"], true, true⟩),
  ("approval_requests", ⟨"/api/v1/approval-requests", "root", ["status", "submitted_by", "record_type"], true, false⟩),
  ("approval_steps", ⟨"/api/v1/approval-steps", "root", ["request_id", "approver_id", "status"], true, false⟩)]

/-- `getRouteConfig(table)`: `ROUTE_MAP[table] ?? null`. -/
def getRouteConfig (table : String) : Option RouteConfig :=
  (ROUTE_MAP.find? (fun p => p.1 = table)).map Prod.snd

/-- The payload of an insert/update call (`Partial<T> | Partial<T>[]`). -/
inductive Payload where
  | one : JObj → Payload
  | many : List JObj → Payload
deriving DecidableEq, Repr

/-- The sealed operation kind of a query state.  (`upsert()` stores
`'insert'`, so the `'upsert'` literal never reaches `execute()`.) -/
inductive Op where
  | select
  | insert
  | update
  | delete
deriving DecidableEq, Repr

/-- The accumulated immutable `QueryState`. -/
structure QueryState where
  table : String
  route : Option RouteConfig
  operation : Op
  columns : String
  data : Option Payload
  filters : List Filter
  orderBy : Option (String × Bool)
  limitCount : Option Int
  rangeFrom : Option Int
  rangeTo : Option Int
deriving DecidableEq, Repr

/-- `ibmDb.from(table)`: the initial query state, resolving the route
descriptor once. -/
def fromTable (t : String) : QueryState :=
  ⟨t, getRouteConfig t, .select, "*", none, [], none, none, none, none⟩

/-- `addFilter`: each chained comparison appends one filter and returns
a fresh state. -/
def QueryState.addFilter (s : QueryState) (ty col : String) (v : FilterValue) : QueryState :=
  { s with filters := s.filters ++ [⟨ty, col, v⟩] }

/-- The `.eq(column, value)` chain method. -/
def QueryState.eqF (s : QueryState) (col : String) (v : FilterValue) : QueryState :=
  s.addFilter "eq" col v

/-- The `.neq(column, value)` chain method. -/
def QueryState.neqF (s : QueryState) (col : String) (v : FilterValue) : QueryState :=
  s.addFilter "neq" col v

/-- The `.limit(count)` chain method. -/
def QueryState.limitTo (s : QueryState) (n : Int) : QueryState :=
  { s with limitCount := some n }

/-- The `.update(data)` chain method. -/
def QueryState.updateData (s : QueryState) (d : JObj) : QueryState :=
  { s with operation := .update, data := some (.one d) }

/-- The `.delete()` chain method. -/
def QueryState.deleteOp (s : QueryState) : QueryState :=
  { s with operation := .delete }

/-- `getIdFilter()`: the `String(value)` of the first
`eq('id', …)` filter, if any. -/
def getIdFilter (s : QueryState) : Option String :=
  (s.filters.find? (fun f => f.column = "id" && f.ftype = "eq")).map
    (fun f => jsFilterString f.value)

/-- JavaScript truthiness of the extracted id
(`id` in `if (id && …)` / `if (!id)`): present and nonempty. -/
def idFilterTruthy (s : QueryState) : Bool :=
  match getIdFilter s with
  | some id => !(id = "")
  | none => false

/-- `URLSearchParams.set`: replace the value of an existing key, else
append the pair. -/
def setParam : List (String × String) → String → String → List (String × String)
  | [], k, v => [(k, v)]
  | p :: rest, k, v => if p.1 = k then (k, v) :: rest else p :: setParam rest k v

/-- Whether one filter survives `buildQueryParams`' guard:
`f.type === 'eq' && allowed.has(f.column) && f.value != null`. -/
def filterContributes (route : RouteConfig) (f : Filter) : Bool :=
  f.ftype = "eq" && decide (f.column ∈ route.filterParams) && !(f.value = .null)

/-- The trailing limit step of `buildQueryParams`:
`if (this.state.limitCount && allowed.has('limit'))` — `limitCount` is
truthy when set and nonzero. -/
def limitStep (route : RouteConfig) : Option Int → List (String × String) → List (String × String)
  | some n, ps => if !(n = 0) && decide ("limit" ∈ route.filterParams)
                  then setParam ps "limit" (toString n) else ps
  | none, ps => ps

/-- `buildQueryParams(route)`: equality filters on allowed columns with
non-null values become query parameters; `limit` is appended only when
`limitCount` is truthy (set and nonzero) and `'limit'` is itself in the
allowed filter set. -/
def buildQueryParams (route : RouteConfig) (s : QueryState) : List (String × String) :=
  limitStep route s.limitCount
    (s.filters.foldl
      (fun ps f => if filterContributes route f then setParam ps f.column (jsFilterString f.value) else ps)
      [])

/-- The HTTP verb of an issued request. -/
inductive HttpMethod where
  | get
  | post
  | put
  | del
deriving DecidableEq, Repr

/-- The one HTTP request a terminal call issues (paths are relative to
the configured `functionsBaseUrl`, which is environment-provided). -/
structure HttpRequest where
  method : HttpMethod
  path : String
  queryParams : List (String × String)
  body : Option Payload
deriving DecidableEq, Repr

/-- Result of resolving a terminal call up to the first I/O: an error
returned without any network traffic, or the single request issued. -/
inductive ExecPlan where
  | noRoute (msg : String)
  | invalid (msg : String)
  | request (r : HttpRequest)
deriving DecidableEq, Repr

/-- The unmapped-table error message of `execute()`. -/
def noRouteMsg (t : String) : String :=
  "Table \"" ++ t ++ "\" has no REST route mapped in hbf-api. " ++
  "Add a route to hbf-api or update ibm-route-map.ts."

/-- `'update requires .eq("id", value)'`. -/
def updateNeedsId : String := "update requires .eq(\"id\", value)"

/-- `'delete requires .eq("id", value)'`. -/
def deleteNeedsId : String := "delete requires .eq(\"id\", value)"

/-- `'DELETE not supported for "<table>"'`. -/
def deleteUnsupportedMsg (t : String) : String :=
  "DELETE not supported for \"" ++ t ++ "\""

/-- The request body of an insert:
`Array.isArray(data) ? data[0] : data`. -/
def insertBody : Option Payload → Option Payload
  | some (.many (x :: _)) => some (.one x)
  | some (.many []) => none
  | d => d

/-- `execute()` up to its first I/O: the unmapped-route guard, then per
operation either a fail-fast error or the single HTTP request. -/
def executePlan (s : QueryState) : ExecPlan :=
  match s.route with
  | none => .noRoute (noRouteMsg s.table)
  | some route =>
    match s.operation with
    | .select =>
      match getIdFilter s with
      | some id =>
        if !(id = "") && route.supportsGetById then
          .request ⟨.get, route.basePath ++ "/" ++ id, [], none⟩
        else
          .request ⟨.get, route.basePath, buildQueryParams route s, none⟩
      | none => .request ⟨.get, route.basePath, buildQueryParams route s, none⟩
    | .insert => .request ⟨.post, route.basePath, [], insertBody s.data⟩
    | .update =>
      match getIdFilter s with
      | some id =>
        if id = "" then .invalid updateNeedsId
        else .request ⟨.put, route.basePath ++ "/" ++ id, [], s.data⟩
      | none => .invalid updateNeedsId
    | .delete =>
      if !route.supportsDelete then .invalid (deleteUnsupportedMsg s.table)
      else
        match getIdFilter s with
        | some id =>
          if id = "" then .invalid deleteNeedsId
          else .request ⟨.del, route.basePath ++ "/" ++ id, [], none⟩
        | none => .invalid deleteNeedsId

/-- Whether a plan issues any HTTP request. -/
def planIssuesRequest : ExecPlan → Bool
  | .request _ => true
  | _ => false

/-- The `{ data, error }` pair a terminal call resolves to. -/
structure ExecResult where
  data : Option (List JObj)
  error : Option String
deriving DecidableEq, Repr

/-- The result `execute()` returns immediately (without I/O) for the
non-request plans; a `request` plan's result depends on the network. -/
def planEarlyResult : ExecPlan → Option ExecResult
  | .noRoute m => some ⟨none, some m⟩
  | .invalid m => some ⟨none, some m⟩
  | .request _ => none

/-- The `{ data, error }` pair `single()` / `maybeSingle()` return. -/
structure TerminalResult where
  data : Option JObj
  error : Option String
deriving DecidableEq, Repr

/-- `single()` over the underlying `execute()` result: a missing or
empty row array becomes the fixed error `'No rows returned'`
(discarding `result.error`), else the first row. -/
def single (r : ExecResult) : TerminalResult :=
  match r.data with
  | none => ⟨none, some "No rows returned"⟩
  | some [] => ⟨none, some "No rows returned"⟩
  | some (x :: _) => ⟨some x, none⟩

/-- `maybeSingle()`: `{ data: rows?.[0] ?? null, error: result.error }`. -/
def maybeSingle (r : ExecResult) : TerminalResult :=
  ⟨(match r.data with | some (x :: _) => some x | _ => none), r.error⟩

/-- The `leads` table configuration passed to the factory by
`src/routes/leads.js`. -/
def leadsCrud : CrudConfig :=
  ⟨"leads", ["status", "stage", "user_id", "priority", "loan_type", "contact_entity_id"],
   ["contact_entity_id", "user_id"], true⟩

/-!
## Theorems
-/

theorem jkeys_nil : jkeys ([] : JObj) = [] := rfl

theorem jkeys_cons (p : String × JValue) (rest : JObj) :
    jkeys (p :: rest) = p.1 :: jkeys rest := rfl

theorem lookupJ_setKey_self (o : JObj) (k : String) (v : JValue) :
    lookupJ (setKey o k v) k = some v := by
  induction o with
  | nil => simp [setKey, lookupJ]
  | cons p rest ih =>
    by_cases h : p.1 = k
    · simp [setKey, h, lookupJ]
    · simp [setKey, h, lookupJ, ih]

theorem lookupJ_setKey_ne (o : JObj) (k k' : String) (v : JValue) (h : k' ≠ k) :
    lookupJ (setKey o k v) k' = lookupJ o k' := by
  induction o with
  | nil => simp [setKey, lookupJ, Ne.symm h]
  | cons p rest ih =>
    by_cases hp : p.1 = k
    · simp [setKey, lookupJ, hp, Ne.symm h]
    · simp [setKey, lookupJ, hp, ih]

theorem mem_jkeys_setKey (o : JObj) (k k' : String) (v : JValue) :
    k' ∈ jkeys (setKey o k v) ↔ k' = k ∨ k' ∈ jkeys o := by
  induction o with
  | nil => simp [setKey, jkeys]
  | cons p rest ih =>
    by_cases hp : p.1 = k
    · rw [show setKey (p :: rest) k v = (k, v) :: rest from by simp [setKey, hp]]
      simp only [jkeys_cons, List.mem_cons]
      constructor
      · rintro (h1 | h1)
        · exact Or.inl h1
        · exact Or.inr (Or.inr h1)
      · rintro (h1 | rfl | h1)
        · exact Or.inl h1
        · exact Or.inl hp
        · exact Or.inr h1
    · rw [show setKey (p :: rest) k v = p :: setKey rest k v from by simp [setKey, hp]]
      simp only [jkeys_cons, List.mem_cons]
      constructor
      · rintro (rfl | h1)
        · exact Or.inr (Or.inl rfl)
        · rcases ih.mp h1 with h2 | h2
          · exact Or.inl h2
          · exact Or.inr (Or.inr h2)
      · rintro (h1 | rfl | h1)
        · exact Or.inr (ih.mpr (Or.inl h1))
        · exact Or.inl rfl
        · exact Or.inr (ih.mpr (Or.inr h1))

theorem lookupJ_removeKey_ne (o : JObj) (k k' : String) (h : k' ≠ k) :
    lookupJ (removeKey o k) k' = lookupJ o k' := by
  induction o with
  | nil => simp [removeKey]
  | cons p rest ih =>
    by_cases hp : p.1 = k
    · simp [removeKey, lookupJ, hp, Ne.symm h, ih]
    · simp [removeKey, lookupJ, hp, ih]

theorem mem_jkeys_removeKey (o : JObj) (k k' : String) :
    k' ∈ jkeys (removeKey o k) ↔ k' ∈ jkeys o ∧ k' ≠ k := by
  induction o with
  | nil => simp [removeKey, jkeys]
  | cons p rest ih =>
    by_cases hp : p.1 = k
    · rw [show removeKey (p :: rest) k = removeKey rest k from by simp [removeKey, hp], ih]
      simp only [jkeys_cons, List.mem_cons]
      constructor
      · rintro ⟨h1, h2⟩
        exact ⟨Or.inr h1, h2⟩
      · rintro ⟨h1 | h1, h2⟩
        · exact absurd (h1.trans hp) h2
        · exact ⟨h1, h2⟩
    · rw [show removeKey (p :: rest) k = p :: removeKey rest k from by simp [removeKey, hp]]
      simp only [jkeys_cons, List.mem_cons]
      constructor
      · rintro (rfl | h1)
        · exact ⟨Or.inl rfl, hp⟩
        · obtain ⟨ha, hb⟩ := ih.mp h1
          exact ⟨Or.inr ha, hb⟩
      · rintro ⟨rfl | h1, h2⟩
        · exact Or.inl rfl
        · exact Or.inr (ih.mpr ⟨h1, h2⟩)

theorem mem_jkeys_setKey_self (o : JObj) (k : String) (v : JValue) :
    k ∈ jkeys (setKey o k v) := by
  rw [mem_jkeys_setKey]
  exact Or.inl rfl

theorem lookupJ_applyUpdate_not_mem (updates : JObj) (row : JObj) (c : String)
    (hc : c ∉ jkeys updates) :
    lookupJ (applyUpdate row updates) c = lookupJ row c := by
  induction updates generalizing row with
  | nil => rfl
  | cons p rest ih =>
    rw [jkeys_cons, List.mem_cons] at hc
    push_neg at hc
    have : applyUpdate row (p :: rest) = applyUpdate (setKey row p.1 (bindValue p.2)) rest := rfl
    rw [this, ih _ hc.2, lookupJ_setKey_ne _ _ _ _ hc.1]


theorem find?_eq_some_split {α : Type} (p : α → Bool) (l : List α) (a : α)
    (h : l.find? p = some a) :
    p a = true ∧ ∃ l1 l2, l = l1 ++ a :: l2 ∧ ∀ x ∈ l1, p x = false := by
  induction l with
  | nil => simp at h
  | cons b t ih =>
    cases hb : p b with
    | true =>
      have hba : b = a := by simpa [List.find?, hb] using h
      subst hba
      exact ⟨hb, [], t, rfl, by simp⟩
    | false =>
      have h' : t.find? p = some a := by simpa [List.find?, hb] using h
      obtain ⟨hp, l1, l2, rfl, hall⟩ := ih h'
      refine ⟨hp, b :: l1, l2, rfl, ?_⟩
      intro x hx
      rcases List.mem_cons.mp hx with rfl | hx
      · exact hb
      · exact hall x hx

/-- C5: for every create request in which some name listed in
`requiredFields` is missing from the body, or bound to null or the
empty string (an explicit `undefined` cannot appear in a JSON body and
coincides with absence), the handler responds 400 with a message naming
the first such field in `requiredFields` order, and no INSERT statement
is executed. -/
theorem c5_missing_required_field (cfg : CrudConfig) (body : JObj) (freshId now : String)
    (f : String) (hf : f ∈ cfg.requiredFields) (hbad : badField (lookupJ body f) = true) :
    ∃ g l1 l2,
      postHandler cfg body freshId now = .missingField g
      ∧ postStatus (postHandler cfg body freshId now) = 400
      ∧ postMessage (postHandler cfg body freshId now) = some ("Missing required field: " ++ g)
      ∧ badField (lookupJ body g) = true
      ∧ cfg.requiredFields = l1 ++ g :: l2
      ∧ (∀ x ∈ l1, badField (lookupJ body x) = false)
      ∧ insertIssued (postHandler cfg body freshId now) = false := by
  have hne : cfg.requiredFields.find? (fun f => badField (lookupJ body f)) ≠ none := by
    intro hnone
    rw [List.find?_eq_none] at hnone
    exact absurd hbad (by simpa using hnone f hf)
  obtain ⟨g, hg⟩ := Option.ne_none_iff_exists'.mp hne
  obtain ⟨hpg, l1, l2, hsplit, hall⟩ := find?_eq_some_split _ _ _ hg
  have hph : postHandler cfg body freshId now = .missingField g := by
    simp [postHandler, hg]
  refine ⟨g, l1, l2, hph, ?_, ?_, hpg, hsplit, hall, ?_⟩ <;>
    rw [hph] <;> rfl

/-- C5 witness: `POST /leads {}` fails with 400 naming
`contact_entity_id`, the first required field, and no row is inserted. -/
theorem c5_missing_required_field_witness :
    ∃ g l1 l2,
      postHandler leadsCrud [] "11111111-2222-4333-8444-555555555555" "2024-01-01T00:00:00.000Z"
        = .missingField g
      ∧ postStatus (postHandler leadsCrud [] "11111111-2222-4333-8444-555555555555"
          "2024-01-01T00:00:00.000Z") = 400
      ∧ postMessage (postHandler leadsCrud [] "11111111-2222-4333-8444-555555555555"
          "2024-01-01T00:00:00.000Z") = some ("Missing required field: " ++ g)
      ∧ badField (lookupJ [] g) = true
      ∧ leadsCrud.requiredFields = l1 ++ g :: l2
      ∧ (∀ x ∈ l1, badField (lookupJ [] x) = false)
      ∧ insertIssued (postHandler leadsCrud [] "11111111-2222-4333-8444-555555555555"
          "2024-01-01T00:00:00.000Z") = false :=
  c5_missing_required_field leadsCrud [] "11111111-2222-4333-8444-555555555555"
    "2024-01-01T00:00:00.000Z" "contact_entity_id" (by decide) (by decide)

/-- C1 counterexample: a PUT on an existing row whose body yields an
empty effective update set (here the empty body `{}`) is NOT answered
with 400/EMPTY_UPDATE: the merge set still contains the refreshed
`updated_at`, so the handler issues an UPDATE and answers 200, contrary
to the claim. -/
theorem c1_counterexample :
    putHandler true [] "2024-01-01T00:00:00.000Z"
      = .updated [("updated_at", JValue.str "2024-01-01T00:00:00.000Z")]
    ∧ putStatus (putHandler true [] "2024-01-01T00:00:00.000Z") = 200
    ∧ putUpdateIssued (putHandler true [] "2024-01-01T00:00:00.000Z") = true := by
  decide

/-- C1 (amended): the merge set of every PUT/PATCH always contains the
refreshed `updated_at`, hence is never empty: the 400 `No fields to
update` branch is unreachable, and every update request on an existing
row — even one whose body has no fields left after stripping `id` and
`created_at` — issues an UPDATE statement and answers 200. -/
theorem c1_put_update_set_never_empty (body : JObj) (now : String) :
    "updated_at" ∈ jkeys (effectiveUpdates body now)
    ∧ effectiveUpdates body now ≠ []
    ∧ putHandler true body now = .updated (effectiveUpdates body now)
    ∧ putHandler true body now ≠ .emptyUpdate
    ∧ putStatus (putHandler true body now) = 200
    ∧ putUpdateIssued (putHandler true body now) = true := by
  have hmem : "updated_at" ∈ jkeys (effectiveUpdates body now) := by
    unfold effectiveUpdates
    rw [mem_jkeys_removeKey, mem_jkeys_removeKey]
    exact ⟨⟨mem_jkeys_setKey_self _ _ _, by decide⟩, by decide⟩
  have hne : effectiveUpdates body now ≠ [] := by
    intro h0
    rw [h0] at hmem
    simp [jkeys] at hmem
  have hput : putHandler true body now = .updated (effectiveUpdates body now) := by
    cases hu : effectiveUpdates body now with
    | nil => exact absurd hu hne
    | cons a t => simp [putHandler, hu]
  refine ⟨hmem, hne, hput, ?_, ?_, ?_⟩ <;> rw [hput] <;> simp [putStatus, putUpdateIssued]

/-- C7: the stored `id` and `created_at` are unchanged by every update
request regardless of the body (both keys are deleted from the merge
set before the SET clause is built), and every column not named in the
effective update set is also unchanged. -/
theorem c7_update_frame (row body : JObj) (now c : String)
    (hc : c ∉ jkeys (effectiveUpdates body now)) :
    lookupJ (applyUpdate row (effectiveUpdates body now)) "id" = lookupJ row "id"
    ∧ lookupJ (applyUpdate row (effectiveUpdates body now)) "created_at"
      = lookupJ row "created_at"
    ∧ lookupJ (applyUpdate row (effectiveUpdates body now)) c = lookupJ row c := by
  have hid : "id" ∉ jkeys (effectiveUpdates body now) := by
    intro hmem
    unfold effectiveUpdates at hmem
    rw [mem_jkeys_removeKey, mem_jkeys_removeKey] at hmem
    exact hmem.1.2 rfl
  have hca : "created_at" ∉ jkeys (effectiveUpdates body now) := by
    intro hmem
    unfold effectiveUpdates at hmem
    rw [mem_jkeys_removeKey] at hmem
    exact hmem.2 rfl
  exact ⟨lookupJ_applyUpdate_not_mem _ _ _ hid,
    lookupJ_applyUpdate_not_mem _ _ _ hca,
    lookupJ_applyUpdate_not_mem _ _ _ hc⟩

/-- C7 witness: writing `{id: "HACK", name: "b"}` to the stored row
`{id: "r1", name: "a"}` leaves the stored `id`, `created_at` and the
untouched column `other` unchanged. -/
theorem c7_update_frame_witness :
    lookupJ (applyUpdate [("id", JValue.str "r1"), ("name", JValue.str "a")]
        (effectiveUpdates [("id", JValue.str "HACK"), ("name", JValue.str "b")] "T")) "id"
      = lookupJ [("id", JValue.str "r1"), ("name", JValue.str "a")] "id"
    ∧ lookupJ (applyUpdate [("id", JValue.str "r1"), ("name", JValue.str "a")]
        (effectiveUpdates [("id", JValue.str "HACK"), ("name", JValue.str "b")] "T")) "created_at"
      = lookupJ [("id", JValue.str "r1"), ("name", JValue.str "a")] "created_at"
    ∧ lookupJ (applyUpdate [("id", JValue.str "r1"), ("name", JValue.str "a")]
        (effectiveUpdates [("id", JValue.str "HACK"), ("name", JValue.str "b")] "T")) "other"
      = lookupJ [("id", JValue.str "r1"), ("name", JValue.str "a")] "other" :=
  c7_update_frame [("id", JValue.str "r1"), ("name", JValue.str "a")]
    [("id", JValue.str "HACK"), ("name", JValue.str "b")] "T" "other" (by decide)

/-- C9: every operation executed against a table with no entry in
`ROUTE_MAP` resolves, before any I/O, to `{data: null, error}` carrying
the explicit "has no REST route mapped" message, and no HTTP request is
issued. -/
theorem c9_unmapped_table_fail_fast (s : QueryState)
    (hr : s.route = getRouteConfig s.table)
    (h : getRouteConfig s.table = none) :
    executePlan s = .noRoute (noRouteMsg s.table)
    ∧ planIssuesRequest (executePlan s) = false
    ∧ planEarlyResult (executePlan s) = some ⟨none, some (noRouteMsg s.table)⟩ := by
  rw [h] at hr
  simp [executePlan, hr, planIssuesRequest, planEarlyResult]

/-- C9 witness: an update against `email_campaigns` (absent from
`ROUTE_MAP`) fails fast with the unmapped-route error and no request. -/
theorem c9_unmapped_table_fail_fast_witness :
    executePlan { fromTable "email_campaigns" with operation := Op.update }
      = .noRoute (noRouteMsg "email_campaigns")
    ∧ planIssuesRequest (executePlan { fromTable "email_campaigns" with operation := Op.update })
      = false
    ∧ planEarlyResult (executePlan { fromTable "email_campaigns" with operation := Op.update })
      = some ⟨none, some (noRouteMsg "email_campaigns")⟩ :=
  c9_unmapped_table_fail_fast { fromTable "email_campaigns" with operation := Op.update }
    rfl (by decide)

/-- C10: on a failed underlying `execute()` (data is null), `single()`
returns the fixed error `No rows returned`, discarding the underlying
error, whereas `maybeSingle()` returns null data together with the
original underlying error; the two observably differ whenever the
underlying error is not itself `No rows returned`. -/
theorem c10_single_vs_maybe_single (r : ExecResult) (h : r.data = none) :
    single r = ⟨none, some "No rows returned"⟩
    ∧ maybeSingle r = ⟨none, r.error⟩
    ∧ (∀ e, r.error = some e → e ≠ "No rows returned" → single r ≠ maybeSingle r) := by
  refine ⟨?_, ?_, ?_⟩
  · simp [single, h]
  · simp [maybeSingle, h]
  · intro e he hne
    simp only [single, maybeSingle, h, he]
    intro hEq
    have := congrArg TerminalResult.error hEq
    simp at this
    exact hne this.symm

/-- C10 witness: a failed execute carrying the error `boom` is reported
as `No rows returned` by `single()` but as `boom` by `maybeSingle()`. -/
theorem c10_single_vs_maybe_single_witness :
    single ⟨none, some "boom"⟩ = ⟨none, some "No rows returned"⟩
    ∧ maybeSingle ⟨none, some "boom"⟩ = ⟨none, some "boom"⟩ :=
  ⟨(c10_single_vs_maybe_single ⟨none, some "boom"⟩ rfl).1,
   (c10_single_vs_maybe_single ⟨none, some "boom"⟩ rfl).2.1⟩

theorem mem_keys_setParam (ps : List (String × String)) (k v k' : String) :
    k' ∈ (setParam ps k v).map Prod.fst ↔ k' = k ∨ k' ∈ ps.map Prod.fst := by
  induction ps with
  | nil => simp [setParam]
  | cons p rest ih =>
    by_cases hp : p.1 = k
    · rw [show setParam (p :: rest) k v = (k, v) :: rest from by simp [setParam, hp]]
      simp only [List.map_cons, List.mem_cons]
      constructor
      · rintro (h1 | h1)
        · exact Or.inl h1
        · exact Or.inr (Or.inr h1)
      · rintro (h1 | rfl | h1)
        · exact Or.inl h1
        · exact Or.inl hp
        · exact Or.inr h1
    · rw [show setParam (p :: rest) k v = p :: setParam rest k v from by simp [setParam, hp]]
      simp only [List.map_cons, List.mem_cons]
      constructor
      · rintro (rfl | h1)
        · exact Or.inr (Or.inl rfl)
        · rcases ih.mp h1 with h2 | h2
          · exact Or.inl h2
          · exact Or.inr (Or.inr h2)
      · rintro (h1 | rfl | h1)
        · exact Or.inr (ih.mpr (Or.inl h1))
        · exact Or.inl rfl
        · exact Or.inr (ih.mpr (Or.inr h1))

theorem mem_keys_filterFold (route : RouteConfig) (fs : List Filter)
    (ps : List (String × String)) (k : String) :
    k ∈ ((fs.foldl (fun ps f =>
          if filterContributes route f then setParam ps f.column (jsFilterString f.value)
          else ps) ps).map Prod.fst)
    ↔ k ∈ ps.map Prod.fst
      ∨ ∃ f ∈ fs, filterContributes route f = true ∧ f.column = k := by
  induction fs generalizing ps with
  | nil => simp
  | cons f t ih =>
    rw [List.foldl_cons]
    by_cases hc : filterContributes route f
    · rw [if_pos hc, ih, mem_keys_setParam]
      constructor
      · rintro ((rfl | h1) | ⟨g, hg, hgc, hgk⟩)
        · exact Or.inr ⟨f, List.mem_cons_self _ _, hc, rfl⟩
        · exact Or.inl h1
        · exact Or.inr ⟨g, List.mem_cons_of_mem _ hg, hgc, hgk⟩
      · rintro (h1 | ⟨g, hg, hgc, hgk⟩)
        · exact Or.inl (Or.inr h1)
        · rcases List.mem_cons.mp hg with rfl | hg2
          · exact Or.inl (Or.inl hgk.symm)
          · exact Or.inr ⟨g, hg2, hgc, hgk⟩
    · rw [if_neg hc, ih]
      constructor
      · rintro (h1 | ⟨g, hg, hgc, hgk⟩)
        · exact Or.inl h1
        · exact Or.inr ⟨g, List.mem_cons_of_mem _ hg, hgc, hgk⟩
      · rintro (h1 | ⟨g, hg, hgc, hgk⟩)
        · exact Or.inl h1
        · rcases List.mem_cons.mp hg with rfl | hg2
          · exact absurd hgc hc
          · exact Or.inr ⟨g, hg2, hgc, hgk⟩

theorem filterContributes_iff (route : RouteConfig) (f : Filter) :
    filterContributes route f = true ↔
      f.ftype = "eq" ∧ f.column ∈ route.filterParams ∧ f.value ≠ .null := by
  simp [filterContributes]
  tauto

theorem mem_keys_buildQueryParams (route : RouteConfig) (s : QueryState) (k : String) :
    k ∈ (buildQueryParams route s).map Prod.fst ↔
      ((∃ f ∈ s.filters, filterContributes route f = true ∧ f.column = k)
       ∨ (k = "limit" ∧ "limit" ∈ route.filterParams
          ∧ ∃ n, s.limitCount = some n ∧ ¬ n = 0)) := by
  unfold buildQueryParams
  cases hlc : s.limitCount with
  | none =>
    rw [limitStep, mem_keys_filterFold]
    simp only [List.map_nil, List.not_mem_nil, false_or]
    constructor
    · exact Or.inl
    · rintro (h1 | ⟨_, _, n, hn, _⟩)
      · exact h1
      · cases hn
  | some n =>
    by_cases hguard : (!(n = 0) && decide ("limit" ∈ route.filterParams)) = true
    · have hguard' := hguard
      rw [Bool.and_eq_true] at hguard'
      have hnz : ¬ n = 0 := by simpa using hguard'.1
      have hlm : "limit" ∈ route.filterParams := by simpa using hguard'.2
      rw [limitStep, if_pos hguard, mem_keys_setParam, mem_keys_filterFold]
      simp only [List.map_nil, List.not_mem_nil, false_or]
      constructor
      · rintro (rfl | ⟨g, hg, hgc, hgk⟩)
        · exact Or.inr ⟨rfl, hlm, n, rfl, hnz⟩
        · exact Or.inl ⟨g, hg, hgc, hgk⟩
      · rintro (⟨g, hg, hgc, hgk⟩ | ⟨hkl, _, _⟩)
        · exact Or.inr ⟨g, hg, hgc, hgk⟩
        · exact Or.inl hkl
    · rw [limitStep, if_neg hguard, mem_keys_filterFold]
      simp only [List.map_nil, List.not_mem_nil, false_or]
      have hg2 : n = 0 ∨ "limit" ∉ route.filterParams := by
        by_contra hcon
        push_neg at hcon
        exact hguard (by simp [hcon.1, hcon.2])
      constructor
      · exact Or.inl
      · rintro (h1 | ⟨hkl, hlm, m, hm, hmz⟩)
        · exact h1
        · obtain rfl : n = m := Option.some.inj hm
          rcases hg2 with h0 | h0
          · exact absurd h0 hmz
          · exact absurd hlm h0

/-- C2 counterexample: a `neq` filter on `status` — a column in the
`leads` allowlist — contributes no query-string parameter (only `eq`
filters are translated), refuting the "if and only if its column name
is in the allowlist" phrasing. -/
theorem c2_neq_filter_counterexample :
    "status" ∈ (⟨"/api/v1/leads", "root", ["status", "source"], true, true⟩
        : RouteConfig).filterParams
    ∧ buildQueryParams ⟨"/api/v1/leads", "root", ["status", "source"], true, true⟩
        { fromTable "leads" with filters := [⟨"neq", "status", FilterValue.str "won"⟩] } = []
    ∧ executePlan
        { fromTable "leads" with filters := [⟨"neq", "status", FilterValue.str "won"⟩] }
      = .request ⟨.get, "/api/v1/leads", [], none⟩ := by
  decide

/-- C2 (amended): for every executed select on a mapped table not
routed to the by-id endpoint, a column appears among the query-string
parameters exactly when some *equality* filter gives it: an `eq` filter
whose column is in the descriptor's `filterParams` allowlist and whose
value is non-null.  Filters outside the allowlist — and non-eq or
null-valued filters — are silently dropped and never cause an error;
the limit value is included only when `limitCount` is set and nonzero
and `'limit'` itself is in the allowlist. -/
theorem c2_query_param_allowlist (s : QueryState) (route : RouteConfig)
    (h : s.route = some route) (hop : s.operation = .select)
    (hid : (idFilterTruthy s && route.supportsGetById) = false) :
    executePlan s = .request ⟨.get, route.basePath, buildQueryParams route s, none⟩
    ∧ ∀ k, k ∈ (buildQueryParams route s).map Prod.fst ↔
        ((∃ f ∈ s.filters, f.ftype = "eq" ∧ f.column = k ∧ f.value ≠ .null
            ∧ f.column ∈ route.filterParams)
         ∨ (k = "limit" ∧ "limit" ∈ route.filterParams
            ∧ ∃ n, s.limitCount = some n ∧ ¬ n = 0)) := by
  constructor
  · cases hgid : getIdFilter s with
    | none => simp [executePlan, h, hop, hgid]
    | some id =>
      have hfalse : (!(id = "") && route.supportsGetById) = false := by
        unfold idFilterTruthy at hid
        rw [hgid] at hid
        simpa using hid
      simp [executePlan, h, hop, hgid, hfalse]
  · intro k
    rw [mem_keys_buildQueryParams]
    constructor
    · rintro (⟨f, hf, hfc, rfl⟩ | hlim)
      · obtain ⟨hty, hmem, hnn⟩ := (filterContributes_iff route f).mp hfc
        exact Or.inl ⟨f, hf, hty, rfl, hnn, hmem⟩
      · exact Or.inr hlim
    · rintro (⟨f, hf, hty, hcol, hnn, hmem⟩ | hlim)
      · exact Or.inl ⟨f, hf, (filterContributes_iff route f).mpr ⟨hty, hmem, hnn⟩, hcol⟩
      · exact Or.inr hlim

/-- C2 witness: `from('leads').select().eq('status','won').limit(10)`
issues one `GET /api/v1/leads` request whose parameters are exactly the
allowlisted equality filters (`status=won`; the limit is dropped since
`'limit'` is not in the `leads` allowlist). -/
theorem c2_query_param_allowlist_witness :
    executePlan
      { fromTable "leads" with
        filters := [⟨"eq", "status", FilterValue.str "won"⟩], limitCount := some 10 }
      = .request ⟨.get, "/api/v1/leads", [("status", "won")], none⟩ :=
  (c2_query_param_allowlist
    { fromTable "leads" with
      filters := [⟨"eq", "status", FilterValue.str "won"⟩], limitCount := some 10 }
    ⟨"/api/v1/leads", "root", ["status", "source"], true, true⟩
    (by decide) rfl (by decide)).1

/-- C3 counterexample: an update with the `eq('id', …)` filter PRESENT
but carrying the empty string is rejected with the
`update requires .eq("id", value)` error and issues no request — the
present filter's value does not become the path parameter, because the
extracted id is tested for JavaScript truthiness, not presence. -/
theorem c3_empty_id_counterexample :
    getIdFilter
      { fromTable "leads" with
        operation := Op.update,
        data := some (.one [("status", JValue.str "won")]),
        filters := [⟨"eq", "id", FilterValue.str ""⟩] } = some ""
    ∧ executePlan
        { fromTable "leads" with
          operation := Op.update,
          data := some (.one [("status", JValue.str "won")]),
          filters := [⟨"eq", "id", FilterValue.str ""⟩] }
      = .invalid updateNeedsId
    ∧ planIssuesRequest (executePlan
        { fromTable "leads" with
          operation := Op.update,
          data := some (.one [("status", JValue.str "won")]),
          filters := [⟨"eq", "id", FilterValue.str ""⟩] }) = false := by
  decide

/-- C3 (amended): for update, an `eq('id', …)` filter whose value has
a nonempty string form is mandatory: that string becomes the
`PUT /:id` path parameter, while a missing filter — or one whose string
form is empty — fails fast with an explicit error and no HTTP request.
For delete the same holds on routes with `supportsDelete`; on routes
without it, execute fails fast regardless of filters.  For select, a
truthy `eq('id')` filter routes the call to `GET /:id` whenever the
descriptor has `supportsGetById`. -/
theorem c3_id_filter_routing (s : QueryState) (route : RouteConfig)
    (h : s.route = some route) :
    (s.operation = .update →
      (∀ id, getIdFilter s = some id → ¬ id = "" →
          executePlan s = .request ⟨.put, route.basePath ++ "/" ++ id, [], s.data⟩)
      ∧ ((getIdFilter s = none ∨ getIdFilter s = some "") →
          executePlan s = .invalid updateNeedsId
          ∧ planIssuesRequest (executePlan s) = false))
    ∧ (s.operation = .delete → route.supportsDelete = true →
      (∀ id, getIdFilter s = some id → ¬ id = "" →
          executePlan s = .request ⟨.del, route.basePath ++ "/" ++ id, [], none⟩)
      ∧ ((getIdFilter s = none ∨ getIdFilter s = some "") →
          executePlan s = .invalid deleteNeedsId
          ∧ planIssuesRequest (executePlan s) = false))
    ∧ (s.operation = .delete → route.supportsDelete = false →
        executePlan s = .invalid (deleteUnsupportedMsg s.table)
        ∧ planIssuesRequest (executePlan s) = false)
    ∧ (s.operation = .select → route.supportsGetById = true →
        ∀ id, getIdFilter s = some id → ¬ id = "" →
          executePlan s = .request ⟨.get, route.basePath ++ "/" ++ id, [], none⟩) := by
  refine ⟨?_, ?_, ?_, ?_⟩
  · intro hop
    constructor
    · intro id hgid hne
      simp [executePlan, h, hop, hgid, hne]
    · rintro (hgid | hgid) <;> simp [executePlan, h, hop, hgid, planIssuesRequest]
  · intro hop hsd
    constructor
    · intro id hgid hne
      simp [executePlan, h, hop, hsd, hgid, hne]
    · rintro (hgid | hgid) <;> simp [executePlan, h, hop, hsd, hgid, planIssuesRequest]
  · intro hop hsd
    simp [executePlan, h, hop, hsd, planIssuesRequest]
  · intro hop hsg id hgid hne
    simp [executePlan, h, hop, hsg, hgid, hne]

/-- C3 witness: `update({status:"won"}).eq('id','L1')` on `leads`
issues exactly one `PUT /api/v1/leads/L1`. -/
theorem c3_id_filter_routing_witness :
    executePlan
      { fromTable "leads" with
        operation := Op.update,
        data := some (.one [("status", JValue.str "won")]),
        filters := [⟨"eq", "id", FilterValue.str "L1"⟩] }
      = .request ⟨.put, "/api/v1/leads/L1", [],
          some (.one [("status", JValue.str "won")])⟩ :=
  ((c3_id_filter_routing
    { fromTable "leads" with
      operation := Op.update,
      data := some (.one [("status", JValue.str "won")]),
      filters := [⟨"eq", "id", FilterValue.str "L1"⟩] }
    ⟨"/api/v1/leads", "root", ["status", "source"], true, true⟩
    (by decide)).1 rfl).1 "L1" (by decide) (by decide)

/-- Sanity: the embedded `parseInt` auto-detects the `0x` radix prefix
(`parseInt('0x999') === 2457`), so `limit=0x999` is clamped to 500, not
treated as the non-numeric fallback. -/
theorem jsParseInt_hex_auto_detect :
    jsParseInt "0x999" = some 2457 ∧ listLimit [("limit", "0x999")] = 500 := by
  decide

/-- Sanity: a negative requested limit reaches the SQL, Postgres
rejects `LIMIT -1`, and the handler answers 500 — not an empty list. -/
theorem listHandler_negative_limit_errors :
    listHandler [] [("limit", "-1")] = .serverError := by
  decide

/-- C4 counterexample: requesting `limit=0` does not bound the result
by `min(0, 500) = 0` rows — `parseInt('0') || 100` falls back to the
default 100, so a one-row table still yields one row. -/
theorem c4_limit_zero_counterexample :
    parsedLimit [("limit", "0")] = some 0
    ∧ listHandler [[("a", JValue.str "x")]] [("limit", "0")]
      = .rows [[("a", JValue.str "x")]]
    ∧ ¬ ((([[("a", JValue.str "x")]] : List JObj).length : Int) ≤ min 0 500) := by
  decide

/-- C4 (amended): when the requested limit parses to a *positive*
integer (hexadecimal `0x` forms included) and the offset is not
negative, at most `min(requested, 500)` rows are returned; a missing,
non-numeric, or zero limit falls back to the default 100 (at most 100
rows); a negative effective limit or offset is rejected by Postgres and
surfaces as a 500 Internal error — so "never an error" also fails as
stated; outside that error case an empty result yields an empty row
array. -/
theorem c4_limit_clamp (db : List JObj) (q : List (String × String)) :
    (∀ n : Int, parsedLimit q = some n → 0 < n → 0 ≤ listOffset q →
      ∃ rs, listHandler db q = .rows rs ∧ (rs.length : Int) ≤ min n 500)
    ∧ ((parsedLimit q = none ∨ parsedLimit q = some 0) → 0 ≤ listOffset q →
      ∃ rs, listHandler db q = .rows rs ∧ rs.length ≤ 100)
    ∧ ((listLimit q < 0 ∨ listOffset q < 0) → listHandler db q = .serverError)
    ∧ (db = [] → 0 ≤ listLimit q → 0 ≤ listOffset q → listHandler db q = .rows []) := by
  have h100 : min (100 : Int) 500 = 100 := min_eq_left (by norm_num)
  refine ⟨?_, ?_, ?_, ?_⟩
  · intro n hn hpos hoff
    have hl : listLimit q = min n 500 := by
      have hnz : ¬ n = 0 := by omega
      unfold listLimit
      rw [hn]
      simp [hnz]
    have hlpos : 0 < listLimit q := by
      rw [hl]
      exact lt_min hpos (by norm_num)
    have hh : listHandler db q
        = .rows ((db.drop (listOffset q).toNat).take (listLimit q).toNat) := by
      unfold listHandler
      rw [if_neg (show ¬ (listLimit q < 0 ∨ listOffset q < 0) by
        push_neg
        exact ⟨by omega, hoff⟩)]
    refine ⟨_, hh, ?_⟩
    have hlen : ((db.drop (listOffset q).toNat).take (listLimit q).toNat).length
        ≤ (listLimit q).toNat := List.length_take_le _ _
    have h1 : ((((db.drop (listOffset q).toNat).take (listLimit q).toNat).length : Nat) : Int)
        ≤ (((listLimit q).toNat : Nat) : Int) := by exact_mod_cast hlen
    have h2 : (((listLimit q).toNat : Nat) : Int) = min n 500 := by
      rw [Int.toNat_of_nonneg (le_of_lt hlpos), hl]
    rw [h2] at h1
    exact h1
  · intro h hoff
    have hl : listLimit q = 100 := by
      rcases h with h | h
      · unfold listLimit
        rw [h]
        exact h100
      · unfold listLimit
        rw [h]
        exact h100
    have hh : listHandler db q
        = .rows ((db.drop (listOffset q).toNat).take (listLimit q).toNat) := by
      unfold listHandler
      rw [if_neg (show ¬ (listLimit q < 0 ∨ listOffset q < 0) by
        push_neg
        refine ⟨?_, hoff⟩
        rw [hl]
        norm_num)]
    refine ⟨_, hh, ?_⟩
    have hlen : ((db.drop (listOffset q).toNat).take (listLimit q).toNat).length
        ≤ (listLimit q).toNat := List.length_take_le _ _
    have ht : (listLimit q).toNat ≤ 100 := by simp [hl]
    exact le_trans hlen ht
  · intro h
    unfold listHandler
    rw [if_pos h]
  · intro hdb hl0 ho0
    subst hdb
    unfold listHandler
    rw [if_neg (show ¬ (listLimit q < 0 ∨ listOffset q < 0) by
      push_neg
      exact ⟨hl0, ho0⟩)]
    simp

/-- C4 witness: `limit=1` over a two-row result keeps at most one row. -/
theorem c4_limit_clamp_witness :
    ∃ rs, listHandler [[("a", JValue.str "x")], [("a", JValue.str "y")]]
        [("limit", "1")] = .rows rs
      ∧ (rs.length : Int) ≤ min 1 500 :=
  (c4_limit_clamp [[("a", JValue.str "x")], [("a", JValue.str "y")]]
    [("limit", "1")]).1 1 (by decide) (by decide) (by decide)

/-- C8 counterexample: with no `order_by` value but `order_dir=asc`,
the generated SQL orders by `created_at ASC`, not by `created_at DESC`
as the claim states for the missing-`order_by` case. -/
theorem c8_default_order_dir_counterexample :
    lookupStr [("order_dir", "asc")] "order_by" = none
    ∧ orderSpec [("order_dir", "asc")] = ("created_at", SortDir.asc)
    ∧ orderSpec [("order_dir", "asc")] ≠ ("created_at", SortDir.desc) := by
  decide

/-- C8 (amended): an `order_by` value containing a character that is
not a letter or underscore silently falls back to `created_at DESC`; a
missing or empty `order_by` falls back to the `created_at` column with
the direction still taken from `order_dir` (ASC exactly when it equals
`asc`); a whitelisted column is used with that direction; no `order_by`
value can make the handler error. -/
theorem c8_order_by_fallback (q : List (String × String)) :
    (∀ s, lookupStr q "order_by" = some s → hasBadChar s = true →
        orderSpec q = ("created_at", SortDir.desc))
    ∧ (lookupStr q "order_by" = none → orderSpec q = ("created_at", dirOf q))
    ∧ (lookupStr q "order_by" = some "" → orderSpec q = ("created_at", dirOf q))
    ∧ (∀ s, lookupStr q "order_by" = some s → s ≠ "" → identOk s = true →
        orderSpec q = (s, dirOf q)) := by
  refine ⟨?_, ?_, ?_, ?_⟩
  · intro s hs hbad
    have hsne : s ≠ "" := by
      intro h0
      subst h0
      exact absurd hbad (by decide)
    have hio : identOk s = false := by
      unfold hasBadChar at hbad
      rw [List.any_eq_true] at hbad
      obtain ⟨c, hc, hcbad⟩ := hbad
      unfold identOk
      cases hall : s.toList.all (fun c => c.isAlpha || c = '_') with
      | false => simp [hall]
      | true =>
        rw [List.all_eq_true] at hall
        have := hall c hc
        rw [Bool.not_eq_true'] at hcbad
        rw [this] at hcbad
        cases hcbad
    simp [orderSpec, hs, hsne, hio]
  · intro h
    simp [orderSpec, h, show identOk "created_at" = true from by decide]
  · intro h
    simp [orderSpec, h, show identOk "created_at" = true from by decide]
  · intro s hs hne hok
    simp [orderSpec, hs, hne, hok]

/-- C8 witness: `order_by=sta!tus` (a `!` is not a letter/underscore)
silently falls back to `created_at DESC`. -/
theorem c8_order_by_fallback_witness :
    orderSpec [("order_by", "sta!tus")] = ("created_at", SortDir.desc) :=
  (c8_order_by_fallback [("order_by", "sta!tus")]).1 "sta!tus" (by decide) (by decide)

/-- C6 counterexample: a caller-supplied `id` of `""` does NOT suppress
synthesis — `req.body.id || uuidv4()` treats the empty string as falsy,
so a fresh UUID is used even though the caller supplied an id,
contradicting "synthesized exactly when the caller did not supply one". -/
theorem c6_counterexample :
    lookupJ [("contact_entity_id", JValue.str "c1"), ("user_id", JValue.str "u1"),
        ("id", JValue.str "")] "id" = some (JValue.str "")
    ∧ postHandler leadsCrud
        [("contact_entity_id", JValue.str "c1"), ("user_id", JValue.str "u1"),
         ("id", JValue.str "")] "fresh-uuid" "T"
      = .created (postRecord
          [("contact_entity_id", JValue.str "c1"), ("user_id", JValue.str "u1"),
           ("id", JValue.str "")] "fresh-uuid" "T")
    ∧ lookupJ (postRecord
        [("contact_entity_id", JValue.str "c1"), ("user_id", JValue.str "u1"),
         ("id", JValue.str "")] "fresh-uuid" "T") "id" = some (JValue.str "fresh-uuid")
    ∧ JValue.str "fresh-uuid" ≠ JValue.str "" := by
  decide

/-- C6 (amended): on every successful create the inserted record's
`created_at` equals its `updated_at` (both the same current instant),
any caller-supplied value for those two columns is overridden, and the
caller's `id` is kept exactly when it is truthy — a fresh UUID is
synthesized when the caller's `id` is absent *or* falsy (null, `""`,
`0`, `false`). -/
theorem c6_create_timestamps_and_id (cfg : CrudConfig) (body : JObj) (freshId now : String)
    (h : ∀ f ∈ cfg.requiredFields, badField (lookupJ body f) = false) :
    postHandler cfg body freshId now = .created (postRecord body freshId now)
    ∧ lookupJ (postRecord body freshId now) "created_at" = some (.str now)
    ∧ lookupJ (postRecord body freshId now) "updated_at" = some (.str now)
    ∧ (suppliedIdTruthy body = true →
        lookupJ (postRecord body freshId now) "id" = lookupJ body "id")
    ∧ (suppliedIdTruthy body = false →
        lookupJ (postRecord body freshId now) "id" = some (.str freshId)) := by
  have hfind : cfg.requiredFields.find? (fun f => badField (lookupJ body f)) = none := by
    rw [List.find?_eq_none]
    intro x hx
    simp [h x hx]
  have hidv : lookupJ (postRecord body freshId now) "id"
      = some (match lookupJ body "id" with
              | some v => if v.truthy then v else .str freshId
              | none => .str freshId) := by
    simp only [postRecord]
    rw [lookupJ_setKey_ne _ _ _ _ (by decide), lookupJ_setKey_ne _ _ _ _ (by decide),
      lookupJ_setKey_self]
  refine ⟨by simp [postHandler, hfind], ?_, ?_, ?_, ?_⟩
  · simp only [postRecord]
    rw [lookupJ_setKey_ne _ _ _ _ (by decide), lookupJ_setKey_self]
  · simp only [postRecord]
    rw [lookupJ_setKey_self]
  · intro ht
    unfold suppliedIdTruthy at ht
    cases hid : lookupJ body "id" with
    | none =>
      rw [hid] at ht
      simp at ht
    | some v =>
      rw [hid] at ht
      simp at ht
      rw [hidv, hid]
      simp [ht]
  · intro ht
    unfold suppliedIdTruthy at ht
    cases hid : lookupJ body "id" with
    | none =>
      rw [hidv, hid]
    | some v =>
      rw [hid] at ht
      simp at ht
      rw [hidv, hid]
      simp [ht]

/-- C6 witness: `POST /leads {contact_entity_id: "c1", user_id: "u1"}`
creates a record whose `created_at` equals its `updated_at` and whose
`id` is the synthesized UUID. -/
theorem c6_create_timestamps_and_id_witness :
    postHandler leadsCrud [("contact_entity_id", JValue.str "c1"), ("user_id", JValue.str "u1")]
        "11111111-2222-4333-8444-555555555555" "2024-01-01T00:00:00.000Z"
      = .created (postRecord
          [("contact_entity_id", JValue.str "c1"), ("user_id", JValue.str "u1")]
          "11111111-2222-4333-8444-555555555555" "2024-01-01T00:00:00.000Z")
    ∧ lookupJ (postRecord
        [("contact_entity_id", JValue.str "c1"), ("user_id", JValue.str "u1")]
        "11111111-2222-4333-8444-555555555555" "2024-01-01T00:00:00.000Z") "created_at"
      = some (.str "2024-01-01T00:00:00.000Z")
    ∧ lookupJ (postRecord
        [("contact_entity_id", JValue.str "c1"), ("user_id", JValue.str "u1")]
        "11111111-2222-4333-8444-555555555555" "2024-01-01T00:00:00.000Z") "updated_at"
      = some (.str "2024-01-01T00:00:00.000Z")
    ∧ (suppliedIdTruthy [("contact_entity_id", JValue.str "c1"), ("user_id", JValue.str "u1")]
        = true →
        lookupJ (postRecord
          [("contact_entity_id", JValue.str "c1"), ("user_id", JValue.str "u1")]
          "11111111-2222-4333-8444-555555555555" "2024-01-01T00:00:00.000Z") "id"
        = lookupJ [("contact_entity_id", JValue.str "c1"), ("user_id", JValue.str "u1")] "id")
    ∧ (suppliedIdTruthy [("contact_entity_id", JValue.str "c1"), ("user_id", JValue.str "u1")]
        = false →
        lookupJ (postRecord
          [("contact_entity_id", JValue.str "c1"), ("user_id", JValue.str "u1")]
          "11111111-2222-4333-8444-555555555555" "2024-01-01T00:00:00.000Z") "id"
        = some (.str "11111111-2222-4333-8444-555555555555")) :=
  c6_create_timestamps_and_id leadsCrud
    [("contact_entity_id", JValue.str "c1"), ("user_id", JValue.str "u1")]
    "11111111-2222-4333-8444-555555555555" "2024-01-01T00:00:00.000Z" (by decide)

end HBF
